import Mathlib

/-!
# Verification of the HealthHack drug-name resolution engine

This development is a shallow embedding of the drug-reference lookup tools of
the HealthHack repository (`src/drug_tools.py` and `src/tool_models.py`),
together with theorems settling the specification claims about them.

Modelling conventions:

* Python strings are Lean `String`s; `str.lower()`/`str.strip()` are embedded
  as `pyLower`/`pyStrip` over the character list (`String.data`), matching
  Python's semantics for the ASCII data these tables hold.
* Python dicts are association lists `List (String × key)` in insertion order;
  `d[k]`/`k in d` become `List.lookup`; `dict.__setitem__` becomes
  `pyDictInsert` (update-in-place keeps the original position, fresh keys
  append at the end, exactly as Python dicts behave).
* `rapidfuzz.process.extractOne(query, keys)` is embedded as `extractOne`,
  parametric in the similarity scorer `score : String → String → Nat`
  (range 0–100): it returns the first key attaining the maximal score, or
  `none` when `keys` is empty, which is exactly rapidfuzz's behaviour of
  keeping the current best unless a strictly better score appears.
  Concrete instantiations use `exactScore`, which agrees with the library
  scorer on the concrete inputs used (identical strings score 100, strings
  sharing no characters score 0).
* A raised `ToolError` becomes `Except.error` with the message the code
  formats; uncaught Python exceptions (`IndexError` on `messages[0]`) also
  become `Except.error`, with a distinguishable message.
* Reading a per-slug JSON file becomes a lookup in an association-list
  `storage`; an absent key models `FileNotFoundError`.
-/

namespace HealthHack

/-- Embeds Python `str.lower()` (ASCII case folding, as used by the data). -/
def pyLower (s : String) : String := ⟨s.data.map Char.toLower⟩

/-- Removes leading and trailing characters satisfying `p` from a character
list; the list-level core of Python `str.strip()`. -/
def stripChars (p : Char → Bool) (l : List Char) : List Char :=
  ((l.dropWhile p).reverse.dropWhile p).reverse

/-- Embeds Python `str.strip()`: drop leading and trailing whitespace. -/
def pyStrip (s : String) : String := ⟨stripChars Char.isWhitespace s.data⟩

/-- Embeds the normalisation `drug_name.lower().strip()` that every resolver
function applies first. -/
def pyNorm (s : String) : String := pyStrip (pyLower s)

/-- Is `sep` a prefix of `l`? Helper for the `str.split` embedding. -/
def matchesAt (sep l : List Char) : Bool :=
  match sep, l with
  | [], _ => true
  | _ :: _, [] => false
  | a :: as, b :: bs => a = b && matchesAt as bs

/-- Core loop of the Python `str.split(sep)` embedding: scans `l` left to
right, cutting at each non-overlapping occurrence of `sep`; `cur` is the
current piece, reversed.  The recursion is structural on a fuel argument so
that the definition reduces inside the kernel; every step consumes at least
one character of `l` (for a non-empty `sep`), so fuel `l.length` never runs
out and the fuel-exhausted case is unreachable from `pySplit`. -/
def pySplitAux (sep : List Char) : Nat → List Char → List Char → List (List Char)
  | _, [], cur => [cur.reverse]
  | 0, l, cur => [cur.reverse ++ l]
  | fuel + 1, c :: rest, cur =>
    if matchesAt sep (c :: rest) ∧ sep ≠ [] then
      cur.reverse :: pySplitAux sep fuel ((c :: rest).drop sep.length) []
    else
      pySplitAux sep fuel rest (c :: cur)

/-- Embeds Python `s.split(sep)` for a non-empty separator (the code only
splits on `", "`). -/
def pySplit (s sep : String) : List String :=
  (pySplitAux sep.data s.data.length s.data []).map fun l => ⟨l⟩

/-- Embeds Python `sep.join(parts)`. -/
def pyJoin (sep : String) : List String → String
  | [] => ""
  | [x] => x
  | x :: xs => x ++ sep ++ pyJoin sep xs

/-- Python dict assignment `d[k] = v`: replace the value in place if the key
exists (keeping its position), else append the new pair. -/
def pyDictInsert {α : Type} (m : List (String × α)) (k : String) (v : α) :
    List (String × α) :=
  if m.any (fun p => p.1 = k) then
    m.map (fun p => if p.1 = k then (k, v) else p)
  else
    m ++ [(k, v)]

/-- Embeds `rapidfuzz.process.extractOne(q, keys)` with scorer `score`:
`none` on an empty key list, otherwise the first key attaining the maximal
score, paired with that score. -/
def extractOne (score : String → String → Nat) (q : String) :
    List String → Option (String × Nat)
  | [] => none
  | k :: ks =>
    match extractOne score q ks with
    | none => some (k, score q k)
    | some (b, s) => if s > score q k then some (b, s) else some (k, score q k)

/-- A simple concrete scorer used to instantiate counterexamples and
witnesses: 100 for identical strings, 0 otherwise.  On every concrete pair
of strings appearing in those instances it classifies matches the same way
the library scorer does (equal strings are accepted, entirely dissimilar
strings score below the 90 threshold). -/
def exactScore (a b : String) : Nat := if a = b then 100 else 0

/-- `DEFAULT_THRESHOLD = 90`, the fixed fuzzy-matching threshold. -/
def DEFAULT_THRESHOLD : Nat := 90

/-- `map_ingredients` from `drug_tools.py`: resolve a drug name to a list of
ingredients via the synonym table.  Python returns either a `list` (synonym
found, split on `", "`) or the original normalised name as a plain `str`
(no acceptable match); the sum type mirrors that union.  `(synonyms.lookup
k).getD ""` embeds the dict access `synonyms[best_match[0]]`, which cannot
miss because `k` is drawn from the table's keys. -/
def map_ingredients (score : String → String → Nat) (drug_name : String)
    (synonyms : List (String × String)) (threshold : Nat) :
    String ⊕ List String :=
  let dn := pyNorm drug_name
  match synonyms.lookup dn with
  | some v => Sum.inr (pySplit v ", ")
  | none =>
    match extractOne score dn (synonyms.map Prod.fst) with
    | some (k, s) =>
      if s > threshold then Sum.inr (pySplit ((synonyms.lookup k).getD "") ", ")
      else Sum.inl dn
    | none => Sum.inl dn

/-- `ingredient_to_bnf_profile` from `drug_tools.py`: resolve one ingredient
to a BNF profile slug, raising `ToolError` when neither an exact nor an
above-threshold fuzzy match exists. -/
def ingredient_to_bnf_profile (score : String → String → Nat)
    (ingredient : String) (bnf_profiles : List (String × String))
    (threshold : Nat) : Except String String :=
  let ing := pyNorm ingredient
  match bnf_profiles.lookup ing with
  | some v => Except.ok v
  | none =>
    match extractOne score ing (bnf_profiles.map Prod.fst) with
    | some (k, s) =>
      if s > threshold then Except.ok ((bnf_profiles.lookup k).getD "")
      else Except.error ("Could not find BNF profile slug match for ingredient: " ++ ing)
    | none => Except.error ("Could not find BNF profile slug match for ingredient: " ++ ing)

/-- `ingredients_to_bnf_profiles` from `drug_tools.py`: per ingredient, take
the table value on an exact key, else an above-threshold fuzzy match's value,
else the ingredient string as-is; join the components with `" with "` and run
`extractOne` on the combined phrase.  Note the source accepts whatever best
match that final lookup returns, with no threshold test (`if best_match:`),
and only raises when the lookup returns nothing, i.e. when the table is
empty. -/
def ingredients_to_bnf_profiles (score : String → String → Nat)
    (ingredients : List String) (bnf_profiles : List (String × String))
    (threshold : Nat) : Except String String :=
  let slug_components := ingredients.map (fun i =>
    match bnf_profiles.lookup i with
    | some v => v
    | none =>
      match extractOne score i (bnf_profiles.map Prod.fst) with
      | some (k, s) =>
        if s > threshold then (bnf_profiles.lookup k).getD "" else i
      | none => i)
  let combined_search := pyJoin " with " slug_components
  match extractOne score combined_search (bnf_profiles.map Prod.fst) with
  | some (k, _) => Except.ok ((bnf_profiles.lookup k).getD "")
  | none => Except.error ("Could not find combined BNF profile slug for: " ++ combined_search)

/-- `resolve_drug_profile` from `drug_tools.py`: direct table hit first, then
synonyms → ingredients → slug.  A single ingredient (either the plain-string
fallback or a one-element list) goes through `ingredient_to_bnf_profile`; any
other list length goes through `ingredients_to_bnf_profiles`.  The trailing
`raise` in the source is dead code (the `isinstance` branches are
exhaustive), so no further case exists here. -/
def resolve_drug_profile (score : String → String → Nat) (drug_name : String)
    (synonyms bnf_profiles : List (String × String)) (threshold : Nat) :
    Except String String :=
  let dn := pyNorm drug_name
  match bnf_profiles.lookup dn with
  | some v => Except.ok v
  | none =>
    match map_ingredients score dn synonyms threshold with
    | Sum.inl single => ingredient_to_bnf_profile score single bnf_profiles threshold
    | Sum.inr ings =>
      match ings with
      | [i] => ingredient_to_bnf_profile score i bnf_profiles threshold
      | _ => ingredients_to_bnf_profiles score ings bnf_profiles threshold

/-- `ingredient_to_bnf_interactions` from `drug_tools.py`: same shape as the
profile variant, over the interaction table. -/
def ingredient_to_bnf_interactions (score : String → String → Nat)
    (ingredient : String) (bnf_interactions : List (String × String))
    (threshold : Nat) : Except String String :=
  let ing := pyNorm ingredient
  match bnf_interactions.lookup ing with
  | some v => Except.ok v
  | none =>
    match extractOne score ing (bnf_interactions.map Prod.fst) with
    | some (k, s) =>
      if s > threshold then Except.ok ((bnf_interactions.lookup k).getD "")
      else Except.error ("Could not find a BNF interaction slug match for " ++ ing)
    | none => Except.error ("Could not find a BNF interaction slug match for " ++ ing)

/-- `resolve_drug_interactions` from `drug_tools.py`: exact hit returns the
one-element slug list; otherwise each ingredient is resolved independently,
`ToolError`s are swallowed per ingredient, and the accumulated slugs are
deduplicated (`list(set(all_slugs))` — Python's set gives no ordering
guarantee, embedded as `List.dedup`).  The `isinstance(slug, list)` branch of
the source is dead code (interaction-table values are strings), so a found
slug is always appended as a single element. -/
def resolve_drug_interactions (score : String → String → Nat)
    (drug_name : String) (synonyms bnf_interactions : List (String × String))
    (threshold : Nat) : List String :=
  let dn := pyNorm drug_name
  match bnf_interactions.lookup dn with
  | some v => [v]
  | none =>
    let drug_ingredients :=
      match map_ingredients score dn synonyms threshold with
      | Sum.inl s => pySplit s ", "
      | Sum.inr l => l
    let all_slugs := drug_ingredients.foldl (fun acc ingredient =>
      match ingredient_to_bnf_interactions score ingredient bnf_interactions threshold with
      | Except.ok slug => acc ++ [slug]
      | Except.error _ => acc) []
    all_slugs.dedup

/-- One element of a record's `messages` array, with the fields
`format_interactions` reads: `severity`, `additiveEffect`, `evidence`,
`message`. -/
structure Msg where
  severity : String
  additiveEffect : Bool
  evidence : Option String
  message : String
deriving Repr, DecidableEq

/-- One element of the `interactions` array of a stored interaction record:
the interactant's `title` and the `messages` array.  The source reads
`interaction["messages"][0]` without guarding, so an empty `messages` list is
representable (and raises). -/
structure RawEntry where
  title : String
  messages : List Msg
deriving Repr, DecidableEq

/-- The per-interactant value `format_interactions` builds. -/
structure Details where
  severity : String
  additiveEffect : Bool
  evidence : Option String
  description : String
deriving Repr, DecidableEq

/-- The pydantic `Interaction` model from `tool_models.py` (field order as in
the source; `url` is always `None` at the construction site). -/
structure Interaction where
  root_drug : String
  drug_name : String
  severity : String
  additiveEffect : Bool
  description : String
  url : Option String
  evidence : Option String
deriving Repr, DecidableEq

/-- A stored interaction JSON document, reduced to the shape
`format_interactions` inspects: `none` models any document missing one of
the nested keys `result`/`data`/`bnfInteractant`/`interactions` (all treated
alike by the guards), `some entries` models
`profile["result"]["data"]["bnfInteractant"]["interactions"]`. -/
abbrev ProfileJson : Type := Option (List RawEntry)

/-- The `Details` dict built for one entry from its first message. -/
def msgDetails (m : Msg) : Details :=
  { severity := m.severity
    additiveEffect := m.additiveEffect
    evidence := m.evidence
    description := m.message }

/-- The details an entry contributes if reached: its first message, or
`none` when its `messages` list is empty (the case where the source raises
`IndexError`). -/
def entryDetails (e : RawEntry) : Option Details :=
  match e.messages with
  | [] => none
  | msg :: _ => some (msgDetails msg)

/-- The loop of `format_interactions`: successive Python dict assignments
`interactions[target_drug] = {...}` from each entry's `messages[0]`.
`interaction["messages"][0]` on an empty list raises `IndexError`, embedded
as `Except.error`; that exception is not a `ToolError` and no caller catches
it. -/
def formatFold (m : List (String × Details)) :
    List RawEntry → Except String (List (String × Details))
  | [] => Except.ok m
  | e :: rest =>
    match e.messages with
    | [] => Except.error "IndexError: list index out of range"
    | msg :: _ => formatFold (pyDictInsert m e.title (msgDetails msg)) rest

/-- `format_interactions` from `drug_tools.py`: `{}` when the nested keys are
missing, else one dict entry per interactant title, later entries
overwriting earlier ones. -/
def format_interactions : ProfileJson → Except String (List (String × Details))
  | none => Except.ok []
  | some entries => formatFold [] entries

/-- The body of the per-slug loop of `bnf_drug_interactions_tool.execute`:
look the slug up in storage (a missing key models `FileNotFoundError`, which
the source catches and skips), format the record, and keep the interactants
whose lowercased title occurs in the lowercased input list, building one
`Interaction` each (with `url = None`). -/
def processSlug (storage : List (String × ProfileJson))
    (drug_list : List String) (root slug : String) :
    Except String (List Interaction) :=
  match storage.lookup slug with
  | none => Except.ok []
  | some pj =>
    match format_interactions pj with
    | Except.error e => Except.error e
    | Except.ok formatted =>
      Except.ok ((formatted.filter
          (fun td => (drug_list.map pyLower).contains (pyLower td.1))).map
        (fun td =>
          { root_drug := root
            drug_name := td.1
            severity := td.2.severity
            additiveEffect := td.2.additiveEffect
            description := td.2.description
            url := none
            evidence := td.2.evidence }))

/-- Inner `for slug in slugs` loop of the aggregator, concatenating the
per-slug interaction lists; an uncaught exception aborts the whole call. -/
def processSlugs (storage : List (String × ProfileJson))
    (drug_list : List String) (root : String) :
    List String → Except String (List Interaction)
  | [] => Except.ok []
  | s :: rest =>
    match processSlug storage drug_list root s with
    | Except.error e => Except.error e
    | Except.ok xs =>
      match processSlugs storage drug_list root rest with
      | Except.error e => Except.error e
      | Except.ok ys => Except.ok (xs ++ ys)

/-- Outer `for drug_name, slugs in slug_map.items()` loop. -/
def processDrugs (storage : List (String × ProfileJson))
    (drug_list : List String) :
    List (String × List String) → Except String (List Interaction)
  | [] => Except.ok []
  | (d, slugs) :: rest =>
    match processSlugs storage drug_list d slugs with
    | Except.error e => Except.error e
    | Except.ok xs =>
      match processDrugs storage drug_list rest with
      | Except.error e => Except.error e
      | Except.ok ys => Except.ok (xs ++ ys)

/-- The `slug_map` dict of `bnf_drug_interactions_tool.execute`:
`slug_map[drug] = resolve_drug_interactions(drug, ...)` for each input drug
in order (duplicate input names overwrite their own identical entry, as in a
Python dict). -/
def buildSlugMap (score : String → String → Nat)
    (synonyms bnf_interactions : List (String × String))
    (drug_list : List String) : List (String × List String) :=
  drug_list.foldl
    (fun m d =>
      pyDictInsert m d
        (resolve_drug_interactions score d synonyms bnf_interactions DEFAULT_THRESHOLD))
    []

/-- `bnf_drug_interactions_tool.execute` from `drug_tools.py`, up to the
final prompt rendering: resolve every input drug to interaction slugs, load
and format each slug's record, and collect the interactions whose target
drug is in the input list.  The tables and the per-slug storage are
parameters standing for the TSV/JSON files the source reloads on each
call. -/
def bnf_drug_interactions_exec (score : String → String → Nat)
    (synonyms bnf_interactions : List (String × String))
    (storage : List (String × ProfileJson)) (drug_list : List String) :
    Except String (List Interaction) :=
  processDrugs storage drug_list
    (buildSlugMap score synonyms bnf_interactions drug_list)

/-- A `{contentFor, content}` block of a drug-profile section. -/
structure ContentBlock where
  contentFor : String
  content : String
deriving Repr, DecidableEq

/-- The `drugClassContent` field of a section: `None`, a single block, or a
list of blocks (the loosely-typed single-object-vs-list JSON shape). -/
inductive ClassContent where
  | null : ClassContent
  | single (b : ContentBlock) : ClassContent
  | multiple (bs : List ContentBlock) : ClassContent
deriving Repr, DecidableEq

/-- A drug-profile section as `DrugProfile.prompt` reads it: a dict with a
`drugContent` key (a block or `None`) and a `drugClassContent` key. -/
structure DrugSection where
  drugContent : Option ContentBlock
  drugClassContent : ClassContent
deriving Repr, DecidableEq

/-- The pydantic `DrugProfile` model from `tool_models.py`, with every
section field of the source; a `none` models a `None`/absent (falsy) value.
Only `title`, `drugAction`, `cautions` and `sideEffects` are read by
`prompt`; the remaining fields are carried to state that fact. -/
structure DrugProfile where
  title : String
  slug : String
  primaryClassification : DrugSection
  secondaryClassifications : Option DrugSection
  allergyAndCrossSensitivity : Option DrugSection
  breastFeeding : Option DrugSection
  conceptionAndContraception : Option DrugSection
  contraIndications : Option DrugSection
  cautions : Option DrugSection
  constituentDrugs : Option DrugSection
  directionsForAdministration : Option DrugSection
  drugAction : Option DrugSection
  effectOnLaboratoryTests : Option DrugSection
  exceptionsToLegalCategory : Option DrugSection
  handlingAndStorage : Option DrugSection
  hepaticImpairment : Option DrugSection
  importantSafetyInformation : Option DrugSection
  indicationsAndDose : Option DrugSection
  interactants : Option DrugSection
  lessSuitableForPrescribing : Option DrugSection
  medicinalForms : Option DrugSection
  monitoringRequirements : Option DrugSection
  nationalFunding : Option DrugSection
  palliativeCare : Option DrugSection
  patientAndCarerAdvice : Option DrugSection
  preTreatmentScreening : Option DrugSection
  pregnancy : Option DrugSection
  prescribingAndDispensingInformation : Option DrugSection
  professionSpecificInformation : Option DrugSection
  renalImpairment : Option DrugSection
  sideEffects : Option DrugSection
  treatmentCessation : Option DrugSection
  relatedTreatmentSummaries : Option DrugSection
  relatedNursePrescribersTreatmentSummaries : Option DrugSection
  unlicensedUse : Option DrugSection
  url : Option String
deriving Repr, DecidableEq

/-- `DrugProfile.drug_content` from `tool_models.py`: read
`drug_dict["drugContent"]`, return `""` when it is `None`, else concatenate
`contentFor` and `content` (no separator, as in the source). -/
def DrugProfile.drug_content (sec : DrugSection) : String :=
  match sec.drugContent with
  | none => ""
  | some b => b.contentFor ++ b.content

/-- `DrugProfile.drug_class_content` from `tool_models.py`: read
`drug_dict["drugClassContent"]`; `""` for `None`, an f-string
`f"{contentFor} {content}"` for a single dict, and the same strings joined
with `"\n----\n"` for a list. -/
def DrugProfile.drug_class_content (sec : DrugSection) : String :=
  match sec.drugClassContent with
  | ClassContent.null => ""
  | ClassContent.single b => b.contentFor ++ " " ++ b.content
  | ClassContent.multiple bs =>
    pyJoin "\n----\n" (bs.map (fun b => b.contentFor ++ " " ++ b.content))

/-- `DrugProfile.prompt` from `tool_models.py`, parametric in `md`, the
third-party `markdownify` HTML-to-markdown converter.  Note the source
applies `markdownify` to the cautions and side-effects content but not to
the drug-action content, and emits the `"Drug Action: \n====\n"` header
unconditionally. -/
def DrugProfile.prompt (md : String → String) (p : DrugProfile) : String :=
  "BNF Drug Profile\n====\n"
    ++ ("Drug Name: " ++ p.title ++ "\n====\n")
    ++ "Drug Action: \n====\n"
    ++ (match p.drugAction with
        | none => ""
        | some sec =>
          DrugProfile.drug_content sec ++ "\n----\n"
            ++ DrugProfile.drug_class_content sec)
    ++ (match p.cautions with
        | none => ""
        | some sec =>
          "Cautions: \n====\n"
            ++ md (DrugProfile.drug_content sec) ++ "\n----\n"
            ++ md (DrugProfile.drug_class_content sec))
    ++ (match p.sideEffects with
        | none => ""
        | some sec =>
          "Side Effects: \n====\n"
            ++ md (DrugProfile.drug_content sec) ++ "\n----\n"
            ++ md (DrugProfile.drug_class_content sec))

/-- The multi-ingredient profile lookup as the claim describes it (for
refutation): join the ingredient NAMES with `" with "` and fuzzy-match the
combined phrase against the profile table, failing only when the lookup
finds nothing.  The source instead joins the per-ingredient RESOLUTIONS
(table values when an ingredient matched); this definition exists to be
compared with `ingredients_to_bnf_profiles`. -/
def ingredients_to_bnf_profiles_spec (score : String → String → Nat)
    (ingredients : List String) (bnf_profiles : List (String × String))
    (_threshold : Nat) : Except String String :=
  let combined_search := pyJoin " with " ingredients
  match extractOne score combined_search (bnf_profiles.map Prod.fst) with
  | some (k, _) => Except.ok ((bnf_profiles.lookup k).getD "")
  | none => Except.error ("Could not find combined BNF profile slug for: " ++ combined_search)

/-- The profile rendering as the claim describes it (for refutation):
identical to `DrugProfile.prompt` except that the drug-action content is
also passed through the markup converter `md`. -/
def DrugProfile.prompt_spec (md : String → String) (p : DrugProfile) : String :=
  "BNF Drug Profile\n====\n"
    ++ ("Drug Name: " ++ p.title ++ "\n====\n")
    ++ "Drug Action: \n====\n"
    ++ (match p.drugAction with
        | none => ""
        | some sec =>
          md (DrugProfile.drug_content sec) ++ "\n----\n"
            ++ md (DrugProfile.drug_class_content sec))
    ++ (match p.cautions with
        | none => ""
        | some sec =>
          "Cautions: \n====\n"
            ++ md (DrugProfile.drug_content sec) ++ "\n----\n"
            ++ md (DrugProfile.drug_class_content sec))
    ++ (match p.sideEffects with
        | none => ""
        | some sec =>
          "Side Effects: \n====\n"
            ++ md (DrugProfile.drug_content sec) ++ "\n----\n"
            ++ md (DrugProfile.drug_class_content sec))

/-- A concrete stand-in for `markdownify`, agreeing with it on the strings
of the instances it is applied to: `markdownify("<i>x</i>") = "*x*"`, and
plain markup-free strings (here `""`) pass through unchanged. -/
def mdSample (s : String) : String := if s = "<i>x</i>" then "*x*" else s

/-- A concrete profile whose drug-action content carries rich-text markup
(`"<i>x</i>"`) and whose cautions and side-effects sections are absent; all
other sections are absent/empty. -/
def markupProfile : DrugProfile :=
  { title := "SampleDrug"
    slug := "sample-slug"
    primaryClassification := ⟨none, ClassContent.null⟩
    secondaryClassifications := none
    allergyAndCrossSensitivity := none
    breastFeeding := none
    conceptionAndContraception := none
    contraIndications := none
    cautions := none
    constituentDrugs := none
    directionsForAdministration := none
    drugAction := some ⟨some ⟨"", "<i>x</i>"⟩, ClassContent.null⟩
    effectOnLaboratoryTests := none
    exceptionsToLegalCategory := none
    handlingAndStorage := none
    hepaticImpairment := none
    importantSafetyInformation := none
    indicationsAndDose := none
    interactants := none
    lessSuitableForPrescribing := none
    medicinalForms := none
    monitoringRequirements := none
    nationalFunding := none
    palliativeCare := none
    patientAndCarerAdvice := none
    preTreatmentScreening := none
    pregnancy := none
    prescribingAndDispensingInformation := none
    professionSpecificInformation := none
    renalImpairment := none
    sideEffects := none
    treatmentCessation := none
    relatedTreatmentSummaries := none
    relatedNursePrescribersTreatmentSummaries := none
    unlicensedUse := none
    url := none }

/-- `markupProfile` with a cautions section added. -/
def cautionsProfile : DrugProfile :=
  { markupProfile with
    cautions := some ⟨some ⟨"For all drugs: ", "<i>x</i>"⟩, ClassContent.null⟩ }

/- ## Library lemmas about the string, list and fuzzy-matching primitives -/

theorem char_toNat_ofNat_valid (n : Nat) (h : n.isValidChar) :
    (Char.ofNat n).toNat = n := by
  simp [Char.ofNat, h, Char.ofNatAux, Char.toNat]
  rfl

theorem char_toLower_eq_of_upper (c : Char) (h : c.toNat ≥ 65 ∧ c.toNat ≤ 90) :
    c.toLower = Char.ofNat (c.toNat + 32) := by
  unfold Char.toLower
  rw [if_pos h]

theorem char_toLower_eq_of_not_upper (c : Char)
    (h : ¬(c.toNat ≥ 65 ∧ c.toNat ≤ 90)) : c.toLower = c := by
  unfold Char.toLower
  rw [if_neg h]

theorem char_toLower_idem (c : Char) : c.toLower.toLower = c.toLower := by
  by_cases h : c.toNat ≥ 65 ∧ c.toNat ≤ 90
  · rw [char_toLower_eq_of_upper c h]
    have hv : (c.toNat + 32).isValidChar := Or.inl (by omega)
    have ht : (Char.ofNat (c.toNat + 32)).toNat = c.toNat + 32 :=
      char_toNat_ofNat_valid _ hv
    exact char_toLower_eq_of_not_upper _ (by omega)
  · rw [char_toLower_eq_of_not_upper c h, char_toLower_eq_of_not_upper c h]

theorem head?_dropWhile_false {α : Type} {p : α → Bool} {l : List α} {a : α}
    (h : (l.dropWhile p).head? = some a) : p a = false := by
  induction l with
  | nil => simp at h
  | cons x xs ih =>
    rw [List.dropWhile_cons] at h
    by_cases hx : p x
    · simp [hx] at h
      exact ih h
    · simp [hx] at h
      subst h
      simp [hx]

theorem dropWhile_eq_self_of_head {α : Type} {p : α → Bool} {l : List α}
    (h : ∀ a, l.head? = some a → p a = false) : l.dropWhile p = l := by
  cases l with
  | nil => simp
  | cons x xs =>
    rw [List.dropWhile_cons]
    simp [h x rfl]

theorem getLast?_dropWhile {α : Type} {p : α → Bool} {l : List α} {a : α}
    (h : (l.dropWhile p).getLast? = some a) : l.getLast? = some a := by
  induction l with
  | nil => simp at h
  | cons x xs ih =>
    rw [List.dropWhile_cons] at h
    by_cases hx : p x
    · simp only [hx, if_true] at h
      rw [List.getLast?_cons, ih h]
      rfl
    · simp only [hx] at h
      simpa using h

theorem stripChars_idem (p : Char → Bool) (l : List Char) :
    stripChars p (stripChars p l) = stripChars p l := by
  unfold stripChars
  have h1 : ((l.dropWhile p).reverse.dropWhile p).reverse.dropWhile p
      = ((l.dropWhile p).reverse.dropWhile p).reverse := by
    apply dropWhile_eq_self_of_head
    intro a ha
    rw [List.head?_reverse] at ha
    have h2 : (l.dropWhile p).reverse.getLast? = some a := getLast?_dropWhile ha
    rw [List.getLast?_reverse] at h2
    exact head?_dropWhile_false h2
  rw [h1, List.reverse_reverse]
  have h3 : ((l.dropWhile p).reverse.dropWhile p).dropWhile p
      = (l.dropWhile p).reverse.dropWhile p := by
    apply dropWhile_eq_self_of_head
    intro a ha
    exact head?_dropWhile_false ha
  rw [h3]

theorem mem_stripChars {p : Char → Bool} {l : List Char} {a : Char}
    (h : a ∈ stripChars p l) : a ∈ l := by
  unfold stripChars at h
  rw [List.mem_reverse] at h
  have h2 := (List.dropWhile_sublist p).subset h
  rw [List.mem_reverse] at h2
  exact (List.dropWhile_sublist p).subset h2

/-- Normalisation is idempotent: `s.lower().strip()` applied twice equals it
applied once, so the re-normalisation inside the per-ingredient resolvers is
a no-op on already-normalised names. -/
theorem pyNorm_idem (s : String) : pyNorm (pyNorm s) = pyNorm s := by
  show pyStrip (pyLower (pyStrip (pyLower s))) = pyStrip (pyLower s)
  have hfix : pyLower (pyStrip (pyLower s)) = pyStrip (pyLower s) := by
    unfold pyLower pyStrip
    congr 1
    have hmem : ∀ a ∈ stripChars Char.isWhitespace (s.data.map Char.toLower),
        Char.toLower a = a := by
      intro a ha
      have hm := mem_stripChars ha
      rw [List.mem_map] at hm
      obtain ⟨c, _, hc⟩ := hm
      rw [← hc]
      exact char_toLower_idem c
    calc (stripChars Char.isWhitespace
            ((⟨s.data.map Char.toLower⟩ : String).data)).map Char.toLower
        = (stripChars Char.isWhitespace (s.data.map Char.toLower)).map id :=
          List.map_congr_left hmem
      _ = _ := by rw [List.map_id]
  rw [hfix]
  show String.mk _ = String.mk _
  congr 1
  exact stripChars_idem _ _

/-- `extractOne` returns `none` exactly on an empty candidate list. -/
theorem extractOne_eq_none_iff (score : String → String → Nat) (q : String)
    (keys : List String) : extractOne score q keys = none ↔ keys = [] := by
  cases keys with
  | nil => simp [extractOne]
  | cons k ks =>
    simp only [extractOne]
    constructor
    · intro h
      cases he : extractOne score q ks with
      | none => rw [he] at h; simp at h
      | some p =>
        obtain ⟨b, s⟩ := p
        rw [he] at h
        by_cases hc : s > score q k <;> simp [hc] at h
    · intro h
      exact absurd h (by simp)

/-- Any candidate `extractOne` returns is drawn from the key list, and the
returned score is the scorer's value at that candidate. -/
theorem extractOne_mem_score (score : String → String → Nat) (q : String) :
    ∀ (keys : List String) (k : String) (s : Nat),
      extractOne score q keys = some (k, s) → k ∈ keys ∧ s = score q k := by
  intro keys
  induction keys with
  | nil => intro k s h; simp [extractOne] at h
  | cons x xs ih =>
    intro k s h
    simp only [extractOne] at h
    cases he : extractOne score q xs with
    | none =>
      rw [he] at h
      simp at h
      exact ⟨by simp [h.1], by rw [← h.2, h.1]⟩
    | some p =>
      obtain ⟨b, t⟩ := p
      rw [he] at h
      dsimp only at h
      by_cases hc : t > score q x
      · rw [if_pos hc] at h
        simp at h
        obtain ⟨hb, ht⟩ := h
        have hm := ih b t he
        exact ⟨by right; rw [← hb]; exact hm.1, by rw [← hb, ← ht]; exact hm.2⟩
      · rw [if_neg hc] at h
        simp at h
        exact ⟨by simp [h.1], by rw [← h.2, h.1]⟩

theorem map_eq_self {α : Type} {l : List α} {f : α → α}
    (h : ∀ a ∈ l, f a = a) : l.map f = l := by
  calc l.map f = l.map id := List.map_congr_left h
    _ = l := List.map_id l

theorem lookup_cons_eq {α : Type} (p : String × α) (rest : List (String × α))
    {k : String} (h : k = p.1) : (p :: rest).lookup k = some p.2 := by
  obtain ⟨a, b⟩ := p
  have hb : (k == a) = true := beq_iff_eq.mpr h
  simp [List.lookup_cons, hb]

theorem lookup_cons_ne {α : Type} (p : String × α) (rest : List (String × α))
    {k : String} (h : ¬(k = p.1)) : (p :: rest).lookup k = rest.lookup k := by
  obtain ⟨a, b⟩ := p
  have hb : (k == a) = false := beq_eq_false_iff_ne.mpr h
  simp [List.lookup_cons, hb]

theorem lookup_mem {α : Type} {l : List (String × α)} {k : String} {v : α}
    (h : l.lookup k = some v) : (k, v) ∈ l := by
  induction l with
  | nil => simp at h
  | cons p rest ih =>
    by_cases he : k = p.1
    · rw [lookup_cons_eq p rest he] at h
      cases h
      rw [he]
      simp
    · rw [lookup_cons_ne p rest he] at h
      right
      exact ih h

theorem mem_pyDictInsert {α : Type} {m : List (String × α)} {k : String}
    {v : α} {q : String × α} (h : q ∈ pyDictInsert m k v) :
    q ∈ m ∨ q = (k, v) := by
  unfold pyDictInsert at h
  by_cases ha : m.any (fun p => p.1 = k)
  · rw [if_pos ha] at h
    rw [List.mem_map] at h
    obtain ⟨p, hp, he⟩ := h
    by_cases hk : p.1 = k
    · rw [if_pos hk] at he
      right
      exact he.symm
    · rw [if_neg hk] at he
      left
      rw [← he]
      exact hp
  · rw [if_neg ha] at h
    rw [List.mem_append] at h
    cases h with
    | inl h => exact Or.inl h
    | inr h => exact Or.inr (by simpa using h)

theorem keys_pyDictInsert {α : Type} (m : List (String × α)) (k : String)
    (v : α) :
    (pyDictInsert m k v).map Prod.fst =
      if m.any (fun p => p.1 = k) then m.map Prod.fst
      else m.map Prod.fst ++ [k] := by
  unfold pyDictInsert
  by_cases ha : m.any (fun p => p.1 = k)
  · rw [if_pos ha, if_pos ha, List.map_map]
    apply List.map_congr_left
    intro p _
    by_cases hk : p.1 = k
    · simp [hk]
    · simp [hk]
  · rw [if_neg ha, if_neg ha]
    simp

theorem nodupKeys_pyDictInsert {α : Type} {m : List (String × α)}
    {k : String} {v : α} (h : (m.map Prod.fst).Nodup) :
    ((pyDictInsert m k v).map Prod.fst).Nodup := by
  rw [keys_pyDictInsert]
  by_cases ha : m.any (fun p => p.1 = k)
  · rw [if_pos ha]
    exact h
  · rw [if_neg ha]
    rw [List.nodup_append]
    refine ⟨h, List.nodup_singleton k, ?_⟩
    intro x hx
    simp only [List.mem_singleton]
    intro he
    apply ha
    rw [List.mem_map] at hx
    obtain ⟨p, hp, hfst⟩ := hx
    rw [List.any_eq_true]
    exact ⟨p, hp, by simp [hfst, he]⟩

theorem lookup_pyDictInsert_self {α : Type} (m : List (String × α))
    (k : String) (v : α) : (pyDictInsert m k v).lookup k = some v := by
  unfold pyDictInsert
  by_cases ha : m.any (fun p => p.1 = k)
  · rw [if_pos ha]
    induction m with
    | nil => simp at ha
    | cons p rest ih =>
      by_cases hk : p.1 = k
      · rw [List.map_cons, if_pos hk]
        exact lookup_cons_eq _ _ rfl
      · rw [List.map_cons, if_neg hk]
        rw [lookup_cons_ne p _ (fun he => hk he.symm)]
        apply ih
        simp only [List.any_cons, hk] at ha
        simpa using ha
  · rw [if_neg ha]
    induction m with
    | nil =>
      rw [List.nil_append]
      exact lookup_cons_eq _ _ rfl
    | cons p rest ih =>
      simp only [List.any_cons] at ha
      push_neg at ha
      have hk : ¬(p.1 = k) := by
        intro he
        exact ha (by simp [he])
      rw [List.cons_append, lookup_cons_ne p _ (fun he => hk he.symm)]
      apply ih
      intro hrest
      exact ha (by simp [hrest, hk])

theorem lookup_pyDictInsert_ne {α : Type} (m : List (String × α))
    (k t : String) (v : α) (h : t ≠ k) :
    (pyDictInsert m k v).lookup t = m.lookup t := by
  unfold pyDictInsert
  by_cases ha : m.any (fun p => p.1 = k)
  · rw [if_pos ha]
    induction m with
    | nil => simp
    | cons p rest ih =>
      by_cases hk : p.1 = k
      · rw [List.map_cons, if_pos hk]
        rw [lookup_cons_ne _ _ (by simpa using h),
          lookup_cons_ne p _ (by rw [hk]; exact h)]
        by_cases hr : rest.any (fun p => p.1 = k)
        · exact ih hr
        · have hid : rest.map (fun p => if p.1 = k then (k, v) else p) = rest := by
            apply map_eq_self
            intro q hq
            rw [if_neg]
            intro he
            exact hr (by rw [List.any_eq_true]; exact ⟨q, hq, by simp [he]⟩)
          rw [hid]
      · rw [List.map_cons, if_neg hk]
        by_cases he : t = p.1
        · rw [lookup_cons_eq _ _ he, lookup_cons_eq _ _ he]
        · rw [lookup_cons_ne _ _ he, lookup_cons_ne _ _ he]
          apply ih
          simp only [List.any_cons, hk] at ha
          simpa using ha
  · rw [if_neg ha]
    induction m with
    | nil =>
      rw [List.nil_append, List.lookup_nil, lookup_cons_ne _ _ h]
      simp
    | cons p rest ih =>
      simp only [List.any_cons] at ha
      push_neg at ha
      rw [List.cons_append]
      by_cases he : t = p.1
      · rw [lookup_cons_eq _ _ he, lookup_cons_eq _ _ he]
      · rw [lookup_cons_ne _ _ he, lookup_cons_ne _ _ he]
        apply ih
        intro hrest
        apply ha
        simp only [Bool.or_eq_true]
        right
        exact hrest

/-- When a name misses the synonym table and every synonym key scores at or
below the threshold, `map_ingredients` returns the normalised name itself
(the plain-string fallback). -/
theorem map_ingredients_fallback (score : String → String → Nat)
    (name : String) (synonyms : List (String × String)) (threshold : Nat)
    (hlk : synonyms.lookup (pyNorm name) = none)
    (hsc : ∀ k ∈ synonyms.map Prod.fst, score (pyNorm name) k ≤ threshold) :
    map_ingredients score name synonyms threshold = Sum.inl (pyNorm name) := by
  unfold map_ingredients
  dsimp only
  rw [hlk]
  cases he : extractOne score (pyNorm name) (synonyms.map Prod.fst) with
  | none => rfl
  | some p =>
    obtain ⟨k, s⟩ := p
    have hm := extractOne_mem_score score (pyNorm name) _ k s he
    have hle : s ≤ threshold := hm.2 ▸ hsc k hm.1
    dsimp only
    rw [if_neg (by omega)]

/-- When an ingredient misses the profile table and every profile key scores
at or below the threshold, `ingredient_to_bnf_profile` raises. -/
theorem ingredient_to_bnf_profile_noMatch (score : String → String → Nat)
    (ingredient : String) (bnf_profiles : List (String × String))
    (threshold : Nat)
    (hlk : bnf_profiles.lookup (pyNorm ingredient) = none)
    (hsc : ∀ k ∈ bnf_profiles.map Prod.fst,
      score (pyNorm ingredient) k ≤ threshold) :
    ingredient_to_bnf_profile score ingredient bnf_profiles threshold =
      Except.error
        ("Could not find BNF profile slug match for ingredient: "
          ++ pyNorm ingredient) := by
  unfold ingredient_to_bnf_profile
  dsimp only
  rw [hlk]
  cases he : extractOne score (pyNorm ingredient) (bnf_profiles.map Prod.fst) with
  | none => rfl
  | some p =>
    obtain ⟨k, s⟩ := p
    have hm := extractOne_mem_score score (pyNorm ingredient) _ k s he
    have hle : s ≤ threshold := hm.2 ▸ hsc k hm.1
    dsimp only
    rw [if_neg (by omega)]

/-- Interaction-table analogue of `ingredient_to_bnf_profile_noMatch`. -/
theorem ingredient_to_bnf_interactions_noMatch (score : String → String → Nat)
    (ingredient : String) (bnf_interactions : List (String × String))
    (threshold : Nat)
    (hlk : bnf_interactions.lookup (pyNorm ingredient) = none)
    (hsc : ∀ k ∈ bnf_interactions.map Prod.fst,
      score (pyNorm ingredient) k ≤ threshold) :
    ingredient_to_bnf_interactions score ingredient bnf_interactions threshold =
      Except.error
        ("Could not find a BNF interaction slug match for "
          ++ pyNorm ingredient) := by
  unfold ingredient_to_bnf_interactions
  dsimp only
  rw [hlk]
  cases he : extractOne score (pyNorm ingredient)
      (bnf_interactions.map Prod.fst) with
  | none => rfl
  | some p =>
    obtain ⟨k, s⟩ := p
    have hm := extractOne_mem_score score (pyNorm ingredient) _ k s he
    have hle : s ≤ threshold := hm.2 ▸ hsc k hm.1
    dsimp only
    rw [if_neg (by omega)]

/-- The slug-accumulating fold of `resolve_drug_interactions` leaves its
accumulator unchanged when every ingredient fails to resolve. -/
theorem interactions_fold_all_error (score : String → String → Nat)
    (bnf_interactions : List (String × String)) (threshold : Nat) :
    ∀ (ps : List String) (acc : List String),
      (∀ p ∈ ps, ∃ e,
        ingredient_to_bnf_interactions score p bnf_interactions threshold
          = Except.error e) →
      ps.foldl (fun acc ingredient =>
        match ingredient_to_bnf_interactions score ingredient bnf_interactions threshold with
        | Except.ok slug => acc ++ [slug]
        | Except.error _ => acc) acc = acc := by
  intro ps
  induction ps with
  | nil => intro acc _; rfl
  | cons p rest ih =>
    intro acc h
    obtain ⟨e, he⟩ := h p (by simp)
    rw [List.foldl_cons, he]
    exact ih acc (fun q hq => h q (by simp [hq]))

/- ## Claim theorems -/

/-- C1: for every drug name whose normalised form (lowercased,
whitespace-trimmed) is an exact key of the target table, resolution returns
that key's mapped value directly — `resolve_drug_profile` over the profile
table and `resolve_drug_interactions` over the interaction table alike (the
latter as the one-element slug list built from the value).  The result holds
for EVERY scorer, which is the precise sense in which the fuzzy-matching
path is never executed: no property of the scorer can influence the
outcome. -/
theorem C1_exact_match_bypasses_fuzzy :
    (∀ (score : String → String → Nat) (name : String)
        (synonyms bnf_profiles : List (String × String)) (threshold : Nat)
        (v : String),
      bnf_profiles.lookup (pyNorm name) = some v →
      resolve_drug_profile score name synonyms bnf_profiles threshold
        = Except.ok v)
    ∧ (∀ (score : String → String → Nat) (name : String)
        (synonyms bnf_interactions : List (String × String)) (threshold : Nat)
        (w : String),
      bnf_interactions.lookup (pyNorm name) = some w →
      resolve_drug_interactions score name synonyms bnf_interactions threshold
        = [w]) := by
  constructor
  · intro score name synonyms bnf_profiles threshold v hp
    unfold resolve_drug_profile
    dsimp only
    rw [hp]
  · intro score name synonyms bnf_interactions threshold w hi
    unfold resolve_drug_interactions
    dsimp only
    rw [hi]

/-- Witness for C1 at concrete tables: `" Ibuprofen "` normalises to the
exact profile key `"ibuprofen"` and the exact interaction key, so both
resolvers return the mapped value directly, for an arbitrary concrete
scorer. -/
theorem C1_exact_match_bypasses_fuzzy_witness :
    resolve_drug_profile exactScore " Ibuprofen " [("brufen", "ibuprofen")]
        [("ibuprofen", "ibuprofen-slug")] 90 = Except.ok "ibuprofen-slug"
    ∧ resolve_drug_interactions exactScore " Ibuprofen "
        [("brufen", "ibuprofen")] [("ibuprofen", "ibuprofen-int-slug")] 90
        = ["ibuprofen-int-slug"] :=
  ⟨C1_exact_match_bypasses_fuzzy.1 exactScore " Ibuprofen " _ _ 90
      "ibuprofen-slug" rfl,
    C1_exact_match_bypasses_fuzzy.2 exactScore " Ibuprofen " _ _ 90
      "ibuprofen-int-slug" rfl⟩

/-- C2: a drug name with no exact match in the profile, interaction or
synonym table, and whose every fuzzy query scores at or below the threshold
(over the synonym keys, over the profile keys, and — for each `", "`-piece
of the normalised name, which is how `resolve_drug_interactions` re-splits
the fallback string — over the interaction keys), makes profile resolution
raise the `NoMatch` `ToolError` while interaction resolution returns the
empty slug list without an error.  For a name without `", "` the piece
hypotheses collapse to the name itself. -/
theorem C2_profile_raises_interactions_empty
    (score : String → String → Nat) (name : String)
    (synonyms bnf_profiles bnf_interactions : List (String × String))
    (threshold : Nat)
    (hp : bnf_profiles.lookup (pyNorm name) = none)
    (hi : bnf_interactions.lookup (pyNorm name) = none)
    (hs : synonyms.lookup (pyNorm name) = none)
    (hscSyn : ∀ k ∈ synonyms.map Prod.fst, score (pyNorm name) k ≤ threshold)
    (hscProf : ∀ k ∈ bnf_profiles.map Prod.fst,
      score (pyNorm name) k ≤ threshold)
    (hpieces : ∀ p ∈ pySplit (pyNorm name) ", ",
      bnf_interactions.lookup (pyNorm p) = none ∧
        ∀ k ∈ bnf_interactions.map Prod.fst, score (pyNorm p) k ≤ threshold) :
    resolve_drug_profile score name synonyms bnf_profiles threshold
      = Except.error
          ("Could not find BNF profile slug match for ingredient: "
            ++ pyNorm name)
    ∧ resolve_drug_interactions score name synonyms bnf_interactions threshold
      = [] := by
  have hmap : map_ingredients score (pyNorm name) synonyms threshold
      = Sum.inl (pyNorm name) := by
    rw [map_ingredients_fallback score (pyNorm name) synonyms threshold
      (by rw [pyNorm_idem]; exact hs)
      (by rw [pyNorm_idem]; exact hscSyn), pyNorm_idem]
  constructor
  · unfold resolve_drug_profile
    dsimp only
    rw [hp, hmap]
    dsimp only
    rw [ingredient_to_bnf_profile_noMatch score (pyNorm name) bnf_profiles
      threshold (by rw [pyNorm_idem]; exact hp)
      (by rw [pyNorm_idem]; exact hscProf), pyNorm_idem]
  · unfold resolve_drug_interactions
    dsimp only
    rw [hi, hmap]
    dsimp only
    rw [interactions_fold_all_error score bnf_interactions threshold
      (pySplit (pyNorm name) ", ") []
      (fun p hpmem =>
        ⟨_, ingredient_to_bnf_interactions_noMatch score p bnf_interactions
          threshold (hpieces p hpmem).1 (hpieces p hpmem).2⟩)]
    rfl

/-- Witness for C2: `"zzz"` has no entry anywhere, every concrete
`exactScore` query is 0 ≤ 90, profile resolution raises, interaction
resolution returns `[]`. -/
theorem C2_profile_raises_interactions_empty_witness :
    resolve_drug_profile exactScore "zzz" [("aaa", "bbb")] [("ccc", "s1")] 90
      = Except.error
          "Could not find BNF profile slug match for ingredient: zzz"
    ∧ resolve_drug_interactions exactScore "zzz" [("aaa", "bbb")]
        [("ddd", "s2")] 90 = [] := by
  have h := C2_profile_raises_interactions_empty exactScore "zzz"
    [("aaa", "bbb")] [("ccc", "s1")] [("ddd", "s2")] 90
    rfl rfl rfl
    (by intro k hk; fin_cases hk <;> decide)
    (by intro k hk; fin_cases hk <;> decide)
    (by intro p hp; fin_cases hp <;> exact ⟨rfl, by intro k hk; fin_cases hk <;> decide⟩)
  exact h

/-- C9: with synonym table `{"panadol": "paracetamol"}` and profile table
`{"paracetamol": "paracetamol-slug"}`, resolving `" Panadol "` (mixed case
and surrounding whitespace) returns `"paracetamol-slug"`.  Every lookup on
this path is exact, so the result holds for every scorer. -/
theorem C9_panadol_scenario :
    ∀ score : String → String → Nat,
      resolve_drug_profile score " Panadol " [("panadol", "paracetamol")]
        [("paracetamol", "paracetamol-slug")] 90
        = Except.ok "paracetamol-slug" :=
  fun _ => rfl

/-- On a non-empty key list `extractOne` always returns a candidate. -/
theorem extractOne_ne_none (score : String → String → Nat) (q : String)
    {keys : List String} (h : keys ≠ []) :
    ∃ k s, extractOne score q keys = some (k, s) := by
  cases he : extractOne score q keys with
  | none => exact absurd ((extractOne_eq_none_iff score q keys).mp he) h
  | some p =>
    obtain ⟨k, s⟩ := p
    exact ⟨k, s, rfl⟩


/-- The final combined-phrase lookup of `ingredients_to_bnf_profiles`
accepts its best candidate whatever its score: the function succeeds
whenever the profile table is non-empty. -/
theorem combined_lookup_accepts (score : String → String → Nat)
    (ingredients : List String) (bnf_profiles : List (String × String))
    (threshold : Nat) (h : bnf_profiles ≠ []) :
    ∃ v, ingredients_to_bnf_profiles score ingredients bnf_profiles threshold
      = Except.ok v := by
  have hkeys : bnf_profiles.map Prod.fst ≠ [] := by
    intro hc
    cases bnf_profiles with
    | nil => exact h rfl
    | cons p rest => simp at hc
  unfold ingredients_to_bnf_profiles
  dsimp only
  split
  · exact ⟨_, rfl⟩
  · next heq => exact absurd ((extractOne_eq_none_iff _ _ _).mp heq) hkeys

/-- C3 counterexample: on the combined multi-ingredient phrase path the
source runs `extractOne` with no threshold test.  With the profile table
`{"zzz": "slugz"}` and ingredients `["aspirin", "qqq"]` (no exact or
acceptable fuzzy match anywhere), the combined phrase `"aspirin with qqq"`
is NOT an exact key, its best candidate `"zzz"` scores 0 ≤ 90, and the
lookup nevertheless accepts it and returns `"slugz"` — a non-exact match
accepted below the threshold, contradicting the claim. -/
theorem C3_counterexample_combined_accepts_below_threshold :
    ingredients_to_bnf_profiles exactScore ["aspirin", "qqq"]
        [("zzz", "slugz")] 90 = Except.ok "slugz"
    ∧ extractOne exactScore (pyJoin " with " ["aspirin", "qqq"]) ["zzz"]
        = some ("zzz", 0)
    ∧ (0 : Nat) ≤ 90
    ∧ pyJoin " with " ["aspirin", "qqq"] ≠ "zzz" :=
  ⟨rfl, by decide, by decide, by decide⟩

/-- C3 amended: the above-threshold rule does govern every fuzzy acceptance
on the synonym path (`map_ingredients`) and the single-ingredient slug
paths (`ingredient_to_bnf_profile`, `ingredient_to_bnf_interactions`) —
whenever one of them succeeds on a name that is not an exact key, some key
scored strictly above the threshold — but the final combined
multi-ingredient phrase lookup accepts its best candidate at any score
whenever the profile table is non-empty. -/
theorem C3_amended_threshold_guarantees :
    (∀ (score : String → String → Nat) (name : String)
        (synonyms : List (String × String)) (threshold : Nat)
        (l : List String),
      synonyms.lookup (pyNorm name) = none →
      map_ingredients score name synonyms threshold = Sum.inr l →
      ∃ k ∈ synonyms.map Prod.fst, score (pyNorm name) k > threshold)
    ∧ (∀ (score : String → String → Nat) (ingredient : String)
        (bnf_profiles : List (String × String)) (threshold : Nat)
        (v : String),
      bnf_profiles.lookup (pyNorm ingredient) = none →
      ingredient_to_bnf_profile score ingredient bnf_profiles threshold
        = Except.ok v →
      ∃ k ∈ bnf_profiles.map Prod.fst, score (pyNorm ingredient) k > threshold)
    ∧ (∀ (score : String → String → Nat) (ingredient : String)
        (bnf_interactions : List (String × String)) (threshold : Nat)
        (v : String),
      bnf_interactions.lookup (pyNorm ingredient) = none →
      ingredient_to_bnf_interactions score ingredient bnf_interactions threshold
        = Except.ok v →
      ∃ k ∈ bnf_interactions.map Prod.fst,
        score (pyNorm ingredient) k > threshold)
    ∧ (∀ (score : String → String → Nat) (ingredients : List String)
        (bnf_profiles : List (String × String)) (threshold : Nat),
      bnf_profiles ≠ [] →
      ∃ v, ingredients_to_bnf_profiles score ingredients bnf_profiles threshold
        = Except.ok v) := by
  refine ⟨?_, ?_, ?_, fun score ings prof thr h => combined_lookup_accepts score ings prof thr h⟩
  · intro score name synonyms threshold l hlk hres
    unfold map_ingredients at hres
    dsimp only at hres
    rw [hlk] at hres
    cases he : extractOne score (pyNorm name) (synonyms.map Prod.fst) with
    | none => rw [he] at hres; simp at hres
    | some p =>
      obtain ⟨k, s⟩ := p
      rw [he] at hres
      dsimp only at hres
      by_cases hc : s > threshold
      · have hm := extractOne_mem_score score (pyNorm name) _ k s he
        exact ⟨k, hm.1, by rw [← hm.2]; exact hc⟩
      · rw [if_neg hc] at hres
        simp at hres
  · intro score ingredient bnf_profiles threshold v hlk hres
    unfold ingredient_to_bnf_profile at hres
    dsimp only at hres
    rw [hlk] at hres
    cases he : extractOne score (pyNorm ingredient) (bnf_profiles.map Prod.fst) with
    | none => rw [he] at hres; simp at hres
    | some p =>
      obtain ⟨k, s⟩ := p
      rw [he] at hres
      dsimp only at hres
      by_cases hc : s > threshold
      · have hm := extractOne_mem_score score (pyNorm ingredient) _ k s he
        exact ⟨k, hm.1, by rw [← hm.2]; exact hc⟩
      · rw [if_neg hc] at hres
        simp at hres
  · intro score ingredient bnf_interactions threshold v hlk hres
    unfold ingredient_to_bnf_interactions at hres
    dsimp only at hres
    rw [hlk] at hres
    cases he : extractOne score (pyNorm ingredient)
        (bnf_interactions.map Prod.fst) with
    | none => rw [he] at hres; simp at hres
    | some p =>
      obtain ⟨k, s⟩ := p
      rw [he] at hres
      dsimp only at hres
      by_cases hc : s > threshold
      · have hm := extractOne_mem_score score (pyNorm ingredient) _ k s he
        exact ⟨k, hm.1, by rw [← hm.2]; exact hc⟩
      · rw [if_neg hc] at hres
        simp at hres

/-- Witness for C3 amended, at concrete inputs: a fuzzy synonym acceptance
(`"panadoll"` vs key `"panadol"` under a scorer rating that pair 95)
exhibits a key above threshold, and a two-ingredient lookup over a non-empty
table succeeds. -/
theorem C3_amended_threshold_guarantees_witness :
    (∃ k ∈ ["panadol"], (fun a b : String =>
        if a = "panadoll" ∧ b = "panadol" then 95 else 0) "panadoll" k > 90)
    ∧ ∃ v, ingredients_to_bnf_profiles exactScore ["aspirin", "qqq"]
        [("aaa", "s1")] 90 = Except.ok v := by
  constructor
  · exact C3_amended_threshold_guarantees.1
      (fun a b => if a = "panadoll" ∧ b = "panadol" then 95 else 0)
      "panadoll" [("panadol", "paracetamol")] 90 ["paracetamol"] rfl rfl
  · exact C3_amended_threshold_guarantees.2.2.2 exactScore ["aspirin", "qqq"]
      [("aaa", "s1")] 90 (by decide)

/-- C6 counterexample: the combined phrase the source fuzzy-matches is NOT
the join of the ingredient NAMES — it is the join of the per-ingredient
RESOLUTIONS.  `"aspirin-combo"` resolves to the two ingredients
`["aspirin", "qqq"]`; `"aspirin"` is an exact profile key mapped to
`"recoded"`, so the source searches for `"recoded with qqq"` (hitting
`"combo-slug"`), while the claim's procedure
(`ingredients_to_bnf_profiles_spec`) searches for `"aspirin with qqq"` and
would return `"name-slug"`. -/
theorem C6_counterexample_joined_components_not_names :
    map_ingredients exactScore "aspirin-combo"
        [("aspirin-combo", "aspirin, qqq")] 90 = Sum.inr ["aspirin", "qqq"]
    ∧ resolve_drug_profile exactScore "aspirin-combo"
        [("aspirin-combo", "aspirin, qqq")]
        [("aspirin", "recoded"), ("recoded with qqq", "combo-slug"),
          ("aspirin with qqq", "name-slug")] 90 = Except.ok "combo-slug"
    ∧ ingredients_to_bnf_profiles_spec exactScore ["aspirin", "qqq"]
        [("aspirin", "recoded"), ("recoded with qqq", "combo-slug"),
          ("aspirin with qqq", "name-slug")] 90 = Except.ok "name-slug"
    ∧ ("combo-slug" : String) ≠ "name-slug" :=
  ⟨rfl, rfl, rfl, by decide⟩

/-- C6 amended: for a drug name resolving to more than one ingredient the
profile resolver hands the ingredient list to the combined lookup; the
joined phrase uses each ingredient's resolution (its table value when it
matches exactly or fuzzily above threshold, else the ingredient name
itself), so when NO ingredient matches it is exactly the join of the
ingredient names; the combined phrase is looked up before any failure, and
the hard failure occurs if and only if that lookup returns no candidate,
i.e. the profile table is empty. -/
theorem C6_amended_combined_phrase_lookup :
    (∀ (score : String → String → Nat) (name : String)
        (synonyms bnf_profiles : List (String × String)) (threshold : Nat)
        (ings : List String),
      bnf_profiles.lookup (pyNorm name) = none →
      map_ingredients score (pyNorm name) synonyms threshold = Sum.inr ings →
      2 ≤ ings.length →
      resolve_drug_profile score name synonyms bnf_profiles threshold
        = ingredients_to_bnf_profiles score ings bnf_profiles threshold)
    ∧ (∀ (score : String → String → Nat) (ings : List String)
        (bnf_profiles : List (String × String)) (threshold : Nat),
      (∀ i ∈ ings, bnf_profiles.lookup i = none ∧
        ∀ k ∈ bnf_profiles.map Prod.fst, score i k ≤ threshold) →
      ingredients_to_bnf_profiles score ings bnf_profiles threshold
        = match extractOne score (pyJoin " with " ings)
            (bnf_profiles.map Prod.fst) with
          | some (k, _) => Except.ok ((bnf_profiles.lookup k).getD "")
          | none => Except.error
              ("Could not find combined BNF profile slug for: "
                ++ pyJoin " with " ings))
    ∧ (∀ (score : String → String → Nat) (ings : List String)
        (bnf_profiles : List (String × String)) (threshold : Nat),
      (∃ e, ingredients_to_bnf_profiles score ings bnf_profiles threshold
        = Except.error e) ↔ bnf_profiles = []) := by
  refine ⟨?_, ?_, ?_⟩
  · intro score name synonyms bnf_profiles threshold ings hp hmap hlen
    unfold resolve_drug_profile
    dsimp only
    rw [hp, hmap]
    dsimp only
    cases ings with
    | nil => simp at hlen
    | cons a t =>
      cases t with
      | nil => simp at hlen
      | cons b t' => rfl
  · intro score ings bnf_profiles threshold h
    unfold ingredients_to_bnf_profiles
    dsimp only
    have hcomp : ings.map (fun i =>
        match bnf_profiles.lookup i with
        | some v => v
        | none =>
          match extractOne score i (bnf_profiles.map Prod.fst) with
          | some (k, s) =>
            if s > threshold then (bnf_profiles.lookup k).getD "" else i
          | none => i) = ings := by
      apply map_eq_self
      intro i hi
      rw [(h i hi).1]
      cases he : extractOne score i (bnf_profiles.map Prod.fst) with
      | none => rfl
      | some p =>
        obtain ⟨k, s⟩ := p
        have hm := extractOne_mem_score score i _ k s he
        have hle : s ≤ threshold := hm.2 ▸ (h i hi).2 k hm.1
        dsimp only
        rw [if_neg (by omega)]
    rw [hcomp]
  · intro score ings bnf_profiles threshold
    constructor
    · rintro ⟨e, he⟩
      by_contra hne
      obtain ⟨v, hv⟩ := combined_lookup_accepts score ings bnf_profiles
        threshold hne
      rw [hv] at he
      exact absurd he (by simp)
    · intro hnil
      subst hnil
      exact ⟨_, rfl⟩

/-- Witness for C6 amended at concrete inputs: `"aspirin-combo"` resolves to
two ingredients and is settled by the combined lookup; with no individually
matching ingredient the searched phrase is the name join `"aaa with bbb"`;
and over an empty profile table the error direction of the iff holds. -/
theorem C6_amended_combined_phrase_lookup_witness :
    resolve_drug_profile exactScore "aspirin-combo"
        [("aspirin-combo", "aspirin, qqq")]
        [("aspirin", "recoded"), ("recoded with qqq", "combo-slug")] 90
      = ingredients_to_bnf_profiles exactScore ["aspirin", "qqq"]
        [("aspirin", "recoded"), ("recoded with qqq", "combo-slug")] 90
    ∧ ingredients_to_bnf_profiles exactScore ["aaa", "bbb"]
        [("zzz", "slugz")] 90
      = (match extractOne exactScore (pyJoin " with " ["aaa", "bbb"]) ["zzz"] with
        | some (k, _) => Except.ok (([("zzz", "slugz")].lookup k).getD "")
        | none => Except.error
            ("Could not find combined BNF profile slug for: "
              ++ pyJoin " with " ["aaa", "bbb"]))
    ∧ (∃ e, ingredients_to_bnf_profiles exactScore ["aaa"]
        ([] : List (String × String)) 90 = Except.error e) := by
  refine ⟨?_, ?_, ?_⟩
  · exact C6_amended_combined_phrase_lookup.1 exactScore "aspirin-combo"
      [("aspirin-combo", "aspirin, qqq")]
      [("aspirin", "recoded"), ("recoded with qqq", "combo-slug")] 90
      ["aspirin", "qqq"] rfl rfl (by decide)
  · exact C6_amended_combined_phrase_lookup.2.1 exactScore ["aaa", "bbb"]
      [("zzz", "slugz")] 90
      (by intro i hi; fin_cases hi <;>
        exact ⟨rfl, by intro k hk; fin_cases hk <;> decide⟩)
  · exact (C6_amended_combined_phrase_lookup.2.2 exactScore ["aaa"] [] 90).mpr rfl

/-- Every interaction a single slug contributes passes the lowercased
membership filter against the input drug list. -/
theorem processSlug_target_in_list
    {storage : List (String × ProfileJson)} {dl : List String}
    {root slug : String} {l : List Interaction}
    (h : processSlug storage dl root slug = Except.ok l) :
    ∀ i ∈ l, pyLower i.drug_name ∈ dl.map pyLower := by
  unfold processSlug at h
  cases hs : storage.lookup slug with
  | none =>
    rw [hs] at h
    cases h
    intro i hi
    simp at hi
  | some pj =>
    rw [hs] at h
    dsimp only at h
    cases hf : format_interactions pj with
    | error e => rw [hf] at h; cases h
    | ok formatted =>
      rw [hf] at h
      dsimp only at h
      cases h
      intro i hi
      rw [List.mem_map] at hi
      obtain ⟨td, htd, hmk⟩ := hi
      rw [List.mem_filter] at htd
      have hc := htd.2
      rw [← hmk]
      dsimp only
      exact List.elem_iff.mp hc

/-- Lifting of `processSlug_target_in_list` over a slug list. -/
theorem processSlugs_target_in_list
    {storage : List (String × ProfileJson)} {dl : List String}
    {root : String} :
    ∀ {slugs : List String} {l : List Interaction},
      processSlugs storage dl root slugs = Except.ok l →
      ∀ i ∈ l, pyLower i.drug_name ∈ dl.map pyLower := by
  intro slugs
  induction slugs with
  | nil =>
    intro l h i hi
    cases h
    simp at hi
  | cons s rest ih =>
    intro l h i hi
    unfold processSlugs at h
    cases h1 : processSlug storage dl root s with
    | error e => rw [h1] at h; cases h
    | ok xs =>
      rw [h1] at h
      dsimp only at h
      cases h2 : processSlugs storage dl root rest with
      | error e => rw [h2] at h; cases h
      | ok ys =>
        rw [h2] at h
        cases h
        rw [List.mem_append] at hi
        cases hi with
        | inl hx => exact processSlug_target_in_list h1 i hx
        | inr hy => exact ih h2 i hy

/-- Lifting over the whole slug map. -/
theorem processDrugs_target_in_list
    {storage : List (String × ProfileJson)} {dl : List String} :
    ∀ {sm : List (String × List String)} {l : List Interaction},
      processDrugs storage dl sm = Except.ok l →
      ∀ i ∈ l, pyLower i.drug_name ∈ dl.map pyLower := by
  intro sm
  induction sm with
  | nil =>
    intro l h i hi
    cases h
    simp at hi
  | cons p rest ih =>
    intro l h i hi
    obtain ⟨d, slugs⟩ := p
    unfold processDrugs at h
    cases h1 : processSlugs storage dl d slugs with
    | error e => rw [h1] at h; cases h
    | ok xs =>
      rw [h1] at h
      dsimp only at h
      cases h2 : processDrugs storage dl rest with
      | error e => rw [h2] at h; cases h
      | ok ys =>
        rw [h2] at h
        cases h
        rw [List.mem_append] at hi
        cases hi with
        | inl hx => exact processSlugs_target_in_list h1 i hx
        | inr hy => exact ih h2 i hy

/-- C4: every interaction record the aggregator returns has a target drug
name that case-insensitively (after `str.lower()`) matches some entry of the
original input list — a record for a drug outside the queried set never
appears. -/
theorem C4_targets_restricted_to_input
    (score : String → String → Nat)
    (synonyms bnf_interactions : List (String × String))
    (storage : List (String × ProfileJson)) (drug_list : List String)
    (out : List Interaction)
    (h : bnf_drug_interactions_exec score synonyms bnf_interactions storage
      drug_list = Except.ok out) :
    ∀ i ∈ out, pyLower i.drug_name ∈ drug_list.map pyLower := by
  unfold bnf_drug_interactions_exec at h
  exact processDrugs_target_in_list h

/-- Witness for C4: a stored record listing both `"bbb"` (queried) and
`"ccc"` (not queried) yields exactly the `"bbb"` interaction, whose target
is in the lowered input list. -/
theorem C4_targets_restricted_to_input_witness :
    bnf_drug_interactions_exec exactScore [] [("aaa", "s1")]
        [("s1", some [⟨"bbb", [⟨"Severe", false, some "study", "d1"⟩]⟩,
          ⟨"ccc", [⟨"Mild", true, none, "d2"⟩]⟩])] ["aaa", "bbb"]
      = Except.ok [⟨"aaa", "bbb", "Severe", false, "d1", none, some "study"⟩]
    ∧ ∀ i ∈ [(⟨"aaa", "bbb", "Severe", false, "d1", none,
        some "study"⟩ : Interaction)],
        pyLower i.drug_name ∈ ["aaa", "bbb"].map pyLower :=
  ⟨rfl,
    C4_targets_restricted_to_input exactScore [] [("aaa", "s1")]
      [("s1", some [⟨"bbb", [⟨"Severe", false, some "study", "d1"⟩]⟩,
        ⟨"ccc", [⟨"Mild", true, none, "d2"⟩]⟩])] ["aaa", "bbb"]
      [⟨"aaa", "bbb", "Severe", false, "d1", none, some "study"⟩] rfl⟩

/-- `formatFold` succeeds whenever every entry has at least one message. -/
theorem formatFold_ok {entries : List RawEntry}
    (hwf : ∀ e ∈ entries, e.messages ≠ []) :
    ∀ m, ∃ r, formatFold m entries = Except.ok r := by
  induction entries with
  | nil => intro m; exact ⟨m, rfl⟩
  | cons e rest ih =>
    intro m
    unfold formatFold
    cases hm : e.messages with
    | nil => exact absurd hm (hwf e (by simp))
    | cons msg tl =>
      exact ih (fun e' he' => hwf e' (by simp [he'])) _

/-- `processSlug` succeeds on storage whose present records are
well-formed. -/
theorem processSlug_ok {storage : List (String × ProfileJson)}
    (hst : ∀ p ∈ storage, ∀ entries, p.2 = some entries →
      ∀ e ∈ entries, e.messages ≠ [])
    (dl : List String) (root slug : String) :
    ∃ l, processSlug storage dl root slug = Except.ok l := by
  unfold processSlug
  cases hs : storage.lookup slug with
  | none => exact ⟨[], rfl⟩
  | some pj =>
    cases pj with
    | none => exact ⟨_, rfl⟩
    | some entries =>
      have hwf : ∀ e ∈ entries, e.messages ≠ [] :=
        hst (slug, some entries) (lookup_mem hs) entries rfl
      obtain ⟨r, hr⟩ := formatFold_ok hwf []
      dsimp only
      show ∃ l, (match format_interactions (some entries) with
        | Except.error e => Except.error e
        | Except.ok formatted => Except.ok _) = Except.ok l
      unfold format_interactions
      dsimp only
      rw [hr]
      exact ⟨_, rfl⟩

/-- `processSlugs` succeeds on well-formed storage. -/
theorem processSlugs_ok {storage : List (String × ProfileJson)}
    (hst : ∀ p ∈ storage, ∀ entries, p.2 = some entries →
      ∀ e ∈ entries, e.messages ≠ [])
    (dl : List String) (root : String) :
    ∀ slugs, ∃ l, processSlugs storage dl root slugs = Except.ok l := by
  intro slugs
  induction slugs with
  | nil => exact ⟨[], rfl⟩
  | cons s rest ih =>
    obtain ⟨xs, hxs⟩ := processSlug_ok hst dl root s
    obtain ⟨ys, hys⟩ := ih
    refine ⟨xs ++ ys, ?_⟩
    unfold processSlugs
    rw [hxs]
    dsimp only
    rw [hys]

/-- `processDrugs` succeeds on well-formed storage. -/
theorem processDrugs_ok {storage : List (String × ProfileJson)}
    (hst : ∀ p ∈ storage, ∀ entries, p.2 = some entries →
      ∀ e ∈ entries, e.messages ≠ [])
    (dl : List String) :
    ∀ sm, ∃ l, processDrugs storage dl sm = Except.ok l := by
  intro sm
  induction sm with
  | nil => exact ⟨[], rfl⟩
  | cons p rest ih =>
    obtain ⟨d, slugs⟩ := p
    obtain ⟨xs, hxs⟩ := processSlugs_ok hst dl d slugs
    obtain ⟨ys, hys⟩ := ih
    refine ⟨xs ++ ys, ?_⟩
    unfold processDrugs
    rw [hxs]
    dsimp only
    rw [hys]

/-- C5 counterexample: a stored record that is present but malformed — an
interaction entry whose `messages` array is empty — makes
`interaction["messages"][0]` raise an uncaught `IndexError`, so the whole
aggregator call fails even though only one drug was bad.  This refutes
"malformed record failures are swallowed per-slug / a single bad stored
record never makes the whole call fail". -/
theorem C5_counterexample_malformed_record_aborts_call :
    bnf_drug_interactions_exec exactScore [] [("aaa", "s1")]
        [("s1", some [⟨"bbb", []⟩])] ["aaa"]
      = Except.error "IndexError: list index out of range"
    ∧ ([("s1", (some [⟨"bbb", []⟩] : ProfileJson))].lookup "s1").isSome = true :=
  ⟨rfl, rfl⟩

/-- C5 amended: the interactions lookup tool returns a (possibly empty)
successful result for EVERY input drug list — unresolvable names, slugs with
no stored record, and records missing the nested interaction structure are
all swallowed per-ingredient/per-slug and only shrink the result — PROVIDED
every present record's interaction entries are well-formed (non-empty
`messages`); a present record with an empty `messages` array aborts the
whole call (see the counterexample). -/
theorem C5_amended_total_on_wellformed_storage
    (score : String → String → Nat)
    (synonyms bnf_interactions : List (String × String))
    (storage : List (String × ProfileJson)) (drug_list : List String)
    (hst : ∀ p ∈ storage, ∀ entries, p.2 = some entries →
      ∀ e ∈ entries, e.messages ≠ []) :
    ∃ out, bnf_drug_interactions_exec score synonyms bnf_interactions storage
      drug_list = Except.ok out := by
  unfold bnf_drug_interactions_exec
  exact processDrugs_ok hst drug_list _

/-- Witness for C5 amended: storage holding a record with no interaction
structure (`none`), plus an unresolvable drug name and a slug with no
record, still yields a successful (here empty) result. -/
theorem C5_amended_total_on_wellformed_storage_witness :
    ∃ out, bnf_drug_interactions_exec exactScore [] [("aaa", "s1")]
      [("s2", (none : ProfileJson))] ["aaa", "zzz"] = Except.ok out :=
  C5_amended_total_on_wellformed_storage exactScore [] [("aaa", "s1")]
    [("s2", (none : ProfileJson))] ["aaa", "zzz"]
    (by
      intro p hp entries he
      fin_cases hp
      cases he)

/-- Folding Python dict assignments whose values satisfy `P` preserves the
property "every stored value satisfies `P`". -/
theorem foldl_pyDictInsert_values {α : Type} (P : α → Prop)
    (step : String → α) (hstep : ∀ d, P (step d)) :
    ∀ (dl : List String) (m : List (String × α)),
      (∀ q ∈ m, P q.2) →
      ∀ q ∈ dl.foldl (fun m d => pyDictInsert m d (step d)) m, P q.2 := by
  intro dl
  induction dl with
  | nil => intro m hm q hq; exact hm q hq
  | cons d rest ih =>
    intro m hm q hq
    rw [List.foldl_cons] at hq
    refine ih (pyDictInsert m d (step d)) ?_ q hq
    intro q' hq'
    cases mem_pyDictInsert hq' with
    | inl h => exact hm q' h
    | inr h => rw [h]; exact hstep d

/-- C7: the slug list `resolve_drug_interactions` hands to the loader is
duplicate-free (`list(set(...))` — deduplicated, with no ordering guarantee,
which is why only `Nodup` is asserted), and so is every value stored in the
aggregator's `slug_map`; yet the aggregated interaction list itself is not
deduplicated: on the concrete input below, where `"combo"` resolves to the
two slugs `"s1"` and `"s2"` whose records both name `"bbb"`, the identical
(root drug, target drug) record appears twice in the output. -/
theorem C7_slugs_nodup_output_not_deduped :
    (∀ (score : String → String → Nat) (name : String)
        (synonyms bnf_interactions : List (String × String)) (threshold : Nat),
      (resolve_drug_interactions score name synonyms bnf_interactions
        threshold).Nodup)
    ∧ (∀ (score : String → String → Nat)
        (synonyms bnf_interactions : List (String × String))
        (dl : List String) (d : String) (slugs : List String),
      (d, slugs) ∈ buildSlugMap score synonyms bnf_interactions dl →
      slugs.Nodup)
    ∧ bnf_drug_interactions_exec exactScore [("combo", "xdrug, ydrug")]
        [("xdrug", "s1"), ("ydrug", "s2"), ("bbb", "s3")]
        [("s1", some [⟨"bbb", [⟨"Severe", false, some "study", "d1"⟩]⟩]),
          ("s2", some [⟨"bbb", [⟨"Severe", false, some "study", "d1"⟩]⟩])]
        ["combo", "bbb"]
      = Except.ok [⟨"combo", "bbb", "Severe", false, "d1", none, some "study"⟩,
          ⟨"combo", "bbb", "Severe", false, "d1", none, some "study"⟩] := by
  have h1 : ∀ (score : String → String → Nat) (name : String)
      (synonyms bnf_interactions : List (String × String)) (threshold : Nat),
      (resolve_drug_interactions score name synonyms bnf_interactions
        threshold).Nodup := by
    intro score name synonyms bnf_interactions threshold
    unfold resolve_drug_interactions
    dsimp only
    cases bnf_interactions.lookup (pyNorm name) with
    | some v => simp
    | none => exact List.nodup_dedup _
  refine ⟨h1, ?_, rfl⟩
  intro score synonyms bnf_interactions dl d slugs hmem
  have hq := foldl_pyDictInsert_values
    (fun l => List.Nodup l)
    (fun drug => resolve_drug_interactions score drug synonyms
      bnf_interactions DEFAULT_THRESHOLD)
    (fun drug => h1 score drug synonyms bnf_interactions DEFAULT_THRESHOLD)
    dl [] (by intro q hq; simp at hq) (d, slugs) hmem
  exact hq

/-- Witness for C7's hypothesised part, at the concrete duplicate-emitting
input: the slug list stored for `"combo"` is the duplicate-free
`["s1", "s2"]`. -/
theorem C7_slugs_nodup_output_not_deduped_witness :
    (["s1", "s2"] : List String).Nodup :=
  C7_slugs_nodup_output_not_deduped.2.1 exactScore [("combo", "xdrug, ydrug")]
    [("xdrug", "s1"), ("ydrug", "s2"), ("bbb", "s3")] ["combo", "bbb"]
    "combo" ["s1", "s2"] (by decide)

/-- A successful `formatFold` run means every processed entry had at least
one message. -/
theorem formatFold_messages_nonempty :
    ∀ {entries : List RawEntry} {m m' : List (String × Details)},
      formatFold m entries = Except.ok m' → ∀ e ∈ entries, e.messages ≠ [] := by
  intro entries
  induction entries with
  | nil => intro m m' _ e he; simp at he
  | cons e0 rest ih =>
    intro m m' h e he
    unfold formatFold at h
    cases hm : e0.messages with
    | nil => rw [hm] at h; cases h
    | cons msg tl =>
      rw [hm] at h
      rcases List.mem_cons.mp he with he0 | hrest
      · rw [he0, hm]; simp
      · exact ih h e hrest

/-- `formatFold` preserves duplicate-freedom of the dict's key list. -/
theorem formatFold_keys_nodup :
    ∀ {entries : List RawEntry} {m m' : List (String × Details)},
      (m.map Prod.fst).Nodup → formatFold m entries = Except.ok m' →
      (m'.map Prod.fst).Nodup := by
  intro entries
  induction entries with
  | nil => intro m m' hn h; cases h; exact hn
  | cons e rest ih =>
    intro m m' hn h
    unfold formatFold at h
    cases hm : e.messages with
    | nil => rw [hm] at h; cases h
    | cons msg tl =>
      rw [hm] at h
      exact ih (nodupKeys_pyDictInsert hn) h

/-- Lookup characterisation of `formatFold`: the value stored under a title
is the `Details` of the first message of the LAST entry bearing that title
(later entries overwrite earlier ones), falling back to the initial dict. -/
theorem formatFold_lookup :
    ∀ {entries : List RawEntry} {m m' : List (String × Details)},
      formatFold m entries = Except.ok m' →
      ∀ t, m'.lookup t =
        Option.or
          (((entries.filter (fun e => e.title = t)).getLast?).bind entryDetails)
          (m.lookup t) := by
  intro entries
  induction entries with
  | nil =>
    intro m m' h t
    cases h
    simp
  | cons e rest ih =>
    intro m m' h t
    unfold formatFold at h
    cases hm : e.messages with
    | nil => rw [hm] at h; cases h
    | cons msg tl =>
      rw [hm] at h
      have hIH := ih h t
      by_cases ht : e.title = t
      · rw [List.filter_cons_of_pos (by simp [ht])]
        cases hfr : rest.filter (fun e' => e'.title = t) with
        | nil =>
          rw [hfr] at hIH
          simp only [List.getLast?_nil, Option.bind_none, Option.none_or] at hIH
          rw [hIH, ← ht, lookup_pyDictInsert_self]
          have hde : entryDetails e = some (msgDetails msg) := by
            unfold entryDetails
            rw [hm]
          simp [hde]
        | cons f fr' =>
          rw [hfr] at hIH
          have hx : ∃ x, (f :: fr').getLast? = some x :=
            ⟨(f :: fr').getLast (by simp), List.getLast?_eq_getLast _ _⟩
          obtain ⟨x, hxl⟩ := hx
          have hxmem : x ∈ rest.filter (fun e' => e'.title = t) := by
            rw [hfr]
            exact List.mem_of_getLast?_eq_some hxl
          rw [List.mem_filter] at hxmem
          have hxne : x.messages ≠ [] :=
            formatFold_messages_nonempty h x hxmem.1
          have hxd : ∃ d, entryDetails x = some d := by
            unfold entryDetails
            cases hxm : x.messages with
            | nil => exact absurd hxm hxne
            | cons a b => exact ⟨_, rfl⟩
          obtain ⟨d, hd⟩ := hxd
          rw [List.getLast?_cons_cons, hxl]
          rw [hxl] at hIH
          simp only [Option.some_bind, hd, Option.or_some] at hIH ⊢
          exact hIH
      · rw [List.filter_cons_of_neg (by simp [ht])]
        rw [lookup_pyDictInsert_ne m e.title t (msgDetails msg)
          (fun he => ht he.symm)] at hIH
        exact hIH

/-- C10: `format_interactions` reads only the first message of each entry
and keys its dict by interactant title, so several same-titled entries in
one record collapse — the stored value is the first message of the LAST such
entry, the dict's titles are duplicate-free, and consequently one loaded
record contributes at most one interaction per (root slug, interactant
title) pair to the aggregator's output. -/
theorem C10_per_title_overwrite_last_wins :
    (∀ (entries : List RawEntry) (m : List (String × Details)),
      format_interactions (some entries) = Except.ok m →
      (m.map Prod.fst).Nodup ∧
      ∀ t, m.lookup t =
        ((entries.filter (fun e => e.title = t)).getLast?).bind entryDetails)
    ∧ (∀ (storage : List (String × ProfileJson)) (dl : List String)
        (root slug : String) (l : List Interaction),
      processSlug storage dl root slug = Except.ok l →
      (l.map Interaction.drug_name).Nodup) := by
  constructor
  · intro entries m h
    have h' : formatFold [] entries = Except.ok m := h
    refine ⟨formatFold_keys_nodup (by simp) h', ?_⟩
    intro t
    have hl := formatFold_lookup h' t
    simpa using hl
  · intro storage dl root slug l h
    unfold processSlug at h
    cases hs : storage.lookup slug with
    | none =>
      rw [hs] at h
      cases h
      simp
    | some pj =>
      rw [hs] at h
      dsimp only at h
      cases hf : format_interactions pj with
      | error e => rw [hf] at h; cases h
      | ok formatted =>
        rw [hf] at h
        dsimp only at h
        cases h
        have hkeys : (formatted.map Prod.fst).Nodup := by
          cases pj with
          | none => cases hf; simp
          | some entries => exact formatFold_keys_nodup (by simp) hf
        rw [List.map_map]
        have hsub : List.Sublist
            ((formatted.filter
              (fun td => (dl.map pyLower).contains (pyLower td.1))).map
            (Interaction.drug_name ∘ fun td =>
              { root_drug := root, drug_name := td.1,
                severity := td.2.severity,
                additiveEffect := td.2.additiveEffect,
                description := td.2.description, url := none,
                evidence := td.2.evidence }))
            (formatted.map Prod.fst) :=
          List.Sublist.map _ (List.filter_sublist formatted)
        exact List.Nodup.sublist hsub hkeys

/-- Witness for C10: a record with two `"bbb"` entries formats to a
single-key dict whose value is the first message of the second entry; a
single-slug aggregation step emits a duplicate-free target list. -/
theorem C10_per_title_overwrite_last_wins_witness :
    (([("bbb", msgDetails ⟨"Mild", true, none, "d2"⟩)] :
        List (String × Details)).map Prod.fst).Nodup
    ∧ ([("bbb", msgDetails ⟨"Mild", true, none, "d2"⟩)] :
        List (String × Details)).lookup "bbb"
      = ((([⟨"bbb", [⟨"Severe", false, none, "d1"⟩]⟩,
          ⟨"bbb", [⟨"Mild", true, none, "d2"⟩, ⟨"X", true, none, "d3"⟩]⟩] :
            List RawEntry).filter
          (fun e => e.title = "bbb")).getLast?).bind entryDetails
    ∧ (([⟨"root", "bbb", "Severe", false, "d1", none, none⟩] :
        List Interaction).map Interaction.drug_name).Nodup := by
  have h := C10_per_title_overwrite_last_wins
  have h1 := h.1
    [⟨"bbb", [⟨"Severe", false, none, "d1"⟩]⟩,
      ⟨"bbb", [⟨"Mild", true, none, "d2"⟩, ⟨"X", true, none, "d3"⟩]⟩]
    [("bbb", msgDetails ⟨"Mild", true, none, "d2"⟩)] rfl
  have h2 := h.2 [("s1", some [⟨"bbb", [⟨"Severe", false, none, "d1"⟩]⟩])]
    ["bbb"] "root" "s1"
    [⟨"root", "bbb", "Severe", false, "d1", none, none⟩] rfl
  exact ⟨h1.1, h1.2 "bbb", h2⟩

/-- C8 counterexample: the rendered summary does NOT convert the markup of
every surfaced section — the drug-action content is concatenated raw, with
the converter applied only to cautions and side effects.  On a profile whose
drug-action content is `"<i>x</i>"`, the source rendering differs from the
claim's rendering (`DrugProfile.prompt_spec`, identical except that drug
action is also converted), because `markdownify` rewrites `"<i>x</i>"` to
`"*x*"`. -/
theorem C8_counterexample_drug_action_unconverted :
    DrugProfile.prompt mdSample markupProfile
      ≠ DrugProfile.prompt_spec mdSample markupProfile
    ∧ markupProfile.drugAction
      = some ⟨some ⟨"", "<i>x</i>"⟩, ClassContent.null⟩
    ∧ mdSample "<i>x</i>" ≠ "<i>x</i>" :=
  ⟨by decide, rfl, by decide⟩

/-- C8 amended: the rendered summary concatenates only the title and the
drug action, cautions and side-effects sections — every other loaded
section is ignored (profiles agreeing on those four fields render
identically) — with the markup converter applied to the cautions and
side-effects content but NOT to the drug-action content, which is emitted
raw (the rendering of a profile without cautions and side effects is
independent of the converter). -/
theorem C8_amended_rendering :
    (∀ (md : String → String) (p q : DrugProfile),
      p.title = q.title → p.drugAction = q.drugAction →
      p.cautions = q.cautions → p.sideEffects = q.sideEffects →
      DrugProfile.prompt md p = DrugProfile.prompt md q)
    ∧ (∀ (md md' : String → String) (p : DrugProfile),
      p.cautions = none → p.sideEffects = none →
      DrugProfile.prompt md p = DrugProfile.prompt md' p)
    ∧ (∀ (md : String → String) (p : DrugProfile) (c : DrugSection),
      p.cautions = some c →
      ∃ a b, DrugProfile.prompt md p
        = a ++ (md (DrugProfile.drug_content c) ++ "\n----\n"
            ++ md (DrugProfile.drug_class_content c)) ++ b)
    ∧ (∀ (md : String → String) (p : DrugProfile) (c : DrugSection),
      p.sideEffects = some c →
      ∃ a b, DrugProfile.prompt md p
        = a ++ (md (DrugProfile.drug_content c) ++ "\n----\n"
            ++ md (DrugProfile.drug_class_content c)) ++ b)
    ∧ (∀ (md : String → String) (p : DrugProfile) (c : DrugSection),
      p.drugAction = some c →
      ∃ a b, DrugProfile.prompt md p
        = a ++ (DrugProfile.drug_content c ++ "\n----\n"
            ++ DrugProfile.drug_class_content c) ++ b) := by
  refine ⟨?_, ?_, ?_, ?_, ?_⟩
  · intro md p q h1 h2 h3 h4
    unfold DrugProfile.prompt
    rw [h1, h2, h3, h4]
  · intro md md' p hc hse
    unfold DrugProfile.prompt
    rw [hc, hse]
  · intro md p c hc
    unfold DrugProfile.prompt
    rw [hc]
    refine ⟨"BNF Drug Profile\n====\n"
        ++ ("Drug Name: " ++ p.title ++ "\n====\n")
        ++ "Drug Action: \n====\n"
        ++ (match p.drugAction with
            | none => ""
            | some sec =>
              DrugProfile.drug_content sec ++ "\n----\n"
                ++ DrugProfile.drug_class_content sec)
        ++ "Cautions: \n====\n",
      (match p.sideEffects with
        | none => ""
        | some sec =>
          "Side Effects: \n====\n"
            ++ md (DrugProfile.drug_content sec) ++ "\n----\n"
            ++ md (DrugProfile.drug_class_content sec)), ?_⟩
    simp only [String.append_assoc]
  · intro md p c hse
    unfold DrugProfile.prompt
    rw [hse]
    refine ⟨"BNF Drug Profile\n====\n"
        ++ ("Drug Name: " ++ p.title ++ "\n====\n")
        ++ "Drug Action: \n====\n"
        ++ (match p.drugAction with
            | none => ""
            | some sec =>
              DrugProfile.drug_content sec ++ "\n----\n"
                ++ DrugProfile.drug_class_content sec)
        ++ (match p.cautions with
            | none => ""
            | some sec =>
              "Cautions: \n====\n"
                ++ md (DrugProfile.drug_content sec) ++ "\n----\n"
                ++ md (DrugProfile.drug_class_content sec))
        ++ "Side Effects: \n====\n", "", ?_⟩
    simp only [String.append_assoc, String.append_empty]
  · intro md p c hda
    unfold DrugProfile.prompt
    rw [hda]
    refine ⟨"BNF Drug Profile\n====\n"
        ++ ("Drug Name: " ++ p.title ++ "\n====\n")
        ++ "Drug Action: \n====\n",
      (match p.cautions with
        | none => ""
        | some sec =>
          "Cautions: \n====\n"
            ++ md (DrugProfile.drug_content sec) ++ "\n----\n"
            ++ md (DrugProfile.drug_class_content sec))
        ++ (match p.sideEffects with
          | none => ""
          | some sec =>
            "Side Effects: \n====\n"
              ++ md (DrugProfile.drug_content sec) ++ "\n----\n"
              ++ md (DrugProfile.drug_class_content sec)), ?_⟩
    simp only [String.append_assoc]

/-- Witness for C8 amended: the markup profile renders identically after
changing an unused section (`pregnancy`) and identically under two different
converters (its cautions and side effects are absent); the cautions profile
exhibits the converted cautions block and the raw drug-action block. -/
theorem C8_amended_rendering_witness :
    DrugProfile.prompt mdSample markupProfile
      = DrugProfile.prompt mdSample
        { markupProfile with
          pregnancy := some ⟨some ⟨"preg", "content"⟩, ClassContent.null⟩ }
    ∧ DrugProfile.prompt mdSample markupProfile
      = DrugProfile.prompt (fun s => s) markupProfile
    ∧ (∃ a b, DrugProfile.prompt mdSample cautionsProfile
        = a ++ (mdSample (DrugProfile.drug_content
              ⟨some ⟨"For all drugs: ", "<i>x</i>"⟩, ClassContent.null⟩)
            ++ "\n----\n"
            ++ mdSample (DrugProfile.drug_class_content
              ⟨some ⟨"For all drugs: ", "<i>x</i>"⟩, ClassContent.null⟩)) ++ b)
    ∧ (∃ a b, DrugProfile.prompt mdSample cautionsProfile
        = a ++ (DrugProfile.drug_content
              ⟨some ⟨"", "<i>x</i>"⟩, ClassContent.null⟩
            ++ "\n----\n"
            ++ DrugProfile.drug_class_content
              ⟨some ⟨"", "<i>x</i>"⟩, ClassContent.null⟩) ++ b) :=
  ⟨C8_amended_rendering.1 mdSample markupProfile
      { markupProfile with
        pregnancy := some ⟨some ⟨"preg", "content"⟩, ClassContent.null⟩ }
      rfl rfl rfl rfl,
    C8_amended_rendering.2.1 mdSample (fun s => s) markupProfile rfl rfl,
    C8_amended_rendering.2.2.1 mdSample cautionsProfile
      ⟨some ⟨"For all drugs: ", "<i>x</i>"⟩, ClassContent.null⟩ rfl,
    C8_amended_rendering.2.2.2.2 mdSample cautionsProfile
      ⟨some ⟨"", "<i>x</i>"⟩, ClassContent.null⟩ rfl⟩

end HealthHack

